import Mathlib

/-!
Verification development for the nene agent runtime (Go sources).

The Go code is shallowly embedded: structs become Lean structures, pointer
cells (`*Part`) become indices into an explicit heap list, Go maps become
insertion-ordered association lists with overwrite-on-update, channels become
lists with an explicit capacity bound, and fallible Go calls returning
`(T, error)` become `Except String T`.  Wall-clock fields (`lastUpdate`,
`lastMessageSent`) and Telegram I/O bookkeeping (`messageID`, `chatID`) are
outside the embedding: no claim refers to them and they are written only from
network side effects.  Go map iteration order is unspecified; the embedding
iterates association lists in insertion order, and the theorems below only
use the resulting folds where the outcome is order-independent.
-/

namespace Nene

/-! ### pkg/bus: message and event types (src/unnamed/part_000) -/

/-- Go `bus.StreamEventType` is a string type; the constants below mirror the
Go constants. -/
abbrev StreamEventType := String

def StreamEventTextStart : StreamEventType := "text-start"

def StreamEventTextDelta : StreamEventType := "text-delta"

def StreamEventTextEnd : StreamEventType := "text-end"

def StreamEventToolCall : StreamEventType := "tool-call"

def StreamEventToolResult : StreamEventType := "tool-result"

def StreamEventToolError : StreamEventType := "tool-error"

def StreamEventStart : StreamEventType := "start"

def StreamEventFinish : StreamEventType := "finish"

def StreamEventError : StreamEventType := "error"

/-- Go `bus.InboundMessage`.  `Metadata` (a Go string map) is an association
list.  Field defaults are the Go zero values. -/
structure InboundMessage where
  Channel : String := ""
  SenderID : String := ""
  ChatID : String := ""
  Content : String := ""
  Media : List String := []
  SessionKey : String := ""
  Metadata : List (String × String) := []
  StreamMode : Bool := false
deriving DecidableEq, Repr

/-- The Go zero value `InboundMessage{}` returned by a cancelled consume. -/
def InboundMessage.zero : InboundMessage := {}

/-- Go `bus.OutboundMessage`. -/
structure OutboundMessage where
  Channel : String := ""
  ChatID : String := ""
  Content : String := ""
  Media : List String := []
  SessionID : String := ""
deriving DecidableEq, Repr

/-- The Go zero value `OutboundMessage{}`. -/
def OutboundMessage.zero : OutboundMessage := {}

/-- Go `bus.StreamMessage`.  `Typ` embeds the Go field `Type` (a Lean
keyword).  Go `ToolArgs` is `map[string]interface{}`; argument values are
abstracted to strings, which is enough for every claim (the aggregator only
stores and pretty-prints them).  `Timestamp` embeds `time.Time` as a natural
number whose zero value is `0` (`time.Time.IsZero`). -/
structure StreamMessage where
  Channel : String := ""
  ChatID : String := ""
  SessionKey : String := ""
  Typ : StreamEventType := ""
  Content : String := ""
  Delta : String := ""
  ToolName : String := ""
  ToolArgs : List (String × String) := []
  ToolResult : String := ""
  ToolCallID : String := ""
  Error : String := ""
  Iteration : Nat := 0
  Timestamp : Nat := 0
deriving DecidableEq, Repr

/-- The Go zero value `StreamMessage{}`. -/
def StreamMessage.zero : StreamMessage := {}

/-! ### Association-list model of Go maps, and a heap of Go pointer cells -/

/-- Lookup in an insertion-ordered association list (Go map read `m[k]`). -/
def assocLookup {β : Type} : List (String × β) → String → Option β
  | [], _ => none
  | (k, v) :: rest, key => if k = key then some v else assocLookup rest key

/-- Write to an association list (Go map write `m[k] = v`): overwrite the
existing binding or append a new one. -/
def assocUpdate {β : Type} : List (String × β) → String → β → List (String × β)
  | [], key, v => [(key, v)]
  | (k, w) :: rest, key, v =>
    if k = key then (key, v) :: rest else (k, w) :: assocUpdate rest key v

/-- Update the cell at index `r` of a heap; out of range is the identity
(a live Go pointer is always in range, see the comment at
`handleStreamEvent`). -/
def listModify {α : Type} : List α → Nat → (α → α) → List α
  | [], _, _ => []
  | a :: as, 0, f => f a :: as
  | a :: as, n + 1, f => a :: listModify as n f

/-- Concatenation of a list of strings in order (the reference meaning of
"concatenation of all deltas in publish order"). -/
def concatAll : List String → String
  | [] => ""
  | s :: rest => s ++ concatAll rest

/-! ### Stream-state aggregator (src/unnamed/part_001, package telegram) -/

/-- Go `telegram.Part`.  `Typ` embeds the Go field `Type`.  The Go
`State map[string]interface{}` bag is flattened into its four used keys
(`status`, `input`, `output`, `error`); a key is `none`/`[]` when absent. -/
structure Part where
  ID : String := ""
  Typ : String := ""
  Text : String := ""
  ToolName : String := ""
  ToolCallID : String := ""
  Status : Option String := none
  Input : List (String × String) := []
  Output : Option String := none
  Error : Option String := none
deriving DecidableEq, Repr

/-- Go `telegram.StreamState`, the per-chat aggregator.  Go stores `*Part`
pointers; here `heap` is the pointer store and the two maps and the
`currentText` pointer hold heap indices, so that one `Part` cell shared by
`parts`, `toolCalls` and `currentText` is mutated once, as in Go.
The wall-clock and Telegram message-id fields are outside the embedding. -/
structure StreamState where
  heap : List Part := []
  parts : List (String × Nat) := []
  toolCalls : List (String × Nat) := []
  toolCallList : List String := []
  currentText : Option Nat := none
  iteration : Nat := 0
deriving DecidableEq, Repr

/-- Go `NewStreamState`. -/
def NewStreamState : StreamState := {}

namespace StreamState

/-- Go `StreamState.GetPart`: read through the `parts` map. -/
def GetPart (s : StreamState) (id : String) : Option Part :=
  (assocLookup s.parts id).bind fun r => s.heap.get? r

/-- Go `StreamState.UpdatePartDelta`: append `delta` to the part's `Text`
when the id is present in `parts`, otherwise do nothing.  (The Go code also
stamps `lastUpdate`, a wall-clock field outside the embedding.) -/
def UpdatePartDelta (s : StreamState) (partID delta : String) : StreamState :=
  match assocLookup s.parts partID with
  | some r =>
    { s with heap := listModify s.heap r fun p => { p with Text := p.Text ++ delta } }
  | none => s

/-- Go `StreamState.GetToolCall`: read through the `toolCalls` map. -/
def GetToolCall (s : StreamState) (id : String) : Option Part :=
  (assocLookup s.toolCalls id).bind fun r => s.heap.get? r

/-- The longest-text fallback loop shared by Go `GetFinalText` and
`GetDisplayContent` (`for _, part := range s.parts`). -/
def longestText (s : StreamState) : String :=
  s.parts.foldl
    (fun acc kv =>
      match s.heap.get? kv.2 with
      | some p => if p.Typ = "text" ∧ acc.length < p.Text.length then p.Text else acc
      | none => acc)
    ""

/-- Go `StreamState.GetFinalText`: the current text part's content when the
pointer is set and nonempty, otherwise the longest text-typed part. -/
def GetFinalText (s : StreamState) : String :=
  match s.currentText.bind (fun r => s.heap.get? r) with
  | some p => if p.Text ≠ "" then p.Text else s.longestText
  | none => s.longestText

end StreamState

/-- The status glyph switch of Go `GetDisplayContent`. -/
def statusGlyph : Option String → String
  | some "pending" => " ⏳"
  | some "running" => " 🔄"
  | some "completed" => " ✅"
  | some "error" => " ❌"
  | _ => ""

/-- Stand-in for Go `json.MarshalIndent(input, "", "  ")`; the exact JSON
byte layout is not load-bearing for any claim, only the length cap applied
to it. -/
def renderArgsJSON (args : List (String × String)) : String :=
  "\x7b " ++
    String.intercalate ", " (args.map fun kv => "\"" ++ kv.1 ++ "\": \"" ++ kv.2 ++ "\"") ++
    " \x7d"

/-- One tool block of Go `GetDisplayContent` (header with glyph, optional
truncated input preview, optional truncated output preview). -/
def renderToolBlock (tool : Part) : String :=
  let toolHeader := "🔧 " ++ tool.ToolName ++ statusGlyph tool.Status
  let inputBlock :=
    if tool.Input.length > 0 then
      let argsStr := renderArgsJSON tool.Input
      let argsStr := if argsStr.length > 200 then argsStr.take 200 ++ "..." else argsStr
      "```" ++ "\nInput:\n" ++ argsStr ++ "\n```"
    else ""
  let outputBlock :=
    match tool.Output with
    | some output =>
      if output ≠ "" then
        let displayOutput := if output.length > 150 then output.take 150 ++ "..." else output
        "```" ++ "\nOutput:\n" ++ displayOutput ++ "\n```"
      else ""
    | none => ""
  toolHeader ++ "\n" ++ inputBlock ++ outputBlock

namespace StreamState

/-- Go `GetDisplayContent`: the slice of tool-call ids to render (the whole
list when at most 3, otherwise the last 3). -/
def toolIDsToShow (s : StreamState) : List String :=
  if s.toolCallList.length ≤ 3 then s.toolCallList
  else s.toolCallList.drop (s.toolCallList.length - 3)

/-- Go `GetDisplayContent`: the rendered tool blocks.  A missing map entry
(`tool == nil`) or an empty `ToolName` is skipped (`continue`). -/
def toolBlocks (s : StreamState) : List String :=
  s.toolIDsToShow.filterMap fun toolID =>
    match s.GetToolCall toolID with
    | none => none
    | some tool => if tool.ToolName = "" then none else some (renderToolBlock tool)

/-- Go `GetDisplayContent`: the whole tool-call section, guarded by
`len(s.toolCalls) > 0`, with the trailing "N more" summary line. -/
def toolSection (s : StreamState) : List String :=
  if s.toolCalls.length > 0 then
    s.toolBlocks ++
      (if s.toolCallList.length > 3 then
        ["📋 ... and " ++ toString (s.toolCallList.length - 3) ++ " more"]
      else [])
  else []

/-- Go `StreamState.GetDisplayContent`: step marker, tool section, then the
current/longest text, joined by newlines (with a blank separator line when
both sections are present). -/
def GetDisplayContent (s : StreamState) : String :=
  let parts1 : List String :=
    if s.iteration > 0 then ["🔄 Step " ++ toString s.iteration] else []
  let parts2 := parts1 ++ s.toolSection
  let finalText :=
    match s.currentText.bind (fun r => s.heap.get? r) with
    | some p => if p.Text ≠ "" then p.Text else s.longestText
    | none => s.longestText
  let parts3 :=
    if finalText ≠ "" then
      if parts2.length > 0 then parts2 ++ ["", finalText] else parts2 ++ [finalText]
    else parts2
  String.intercalate "\n" parts3

end StreamState

/-- Go `TelegramChannel.handleStreamEvent`, restricted to its mutations of
the per-chat `StreamState` (the Telegram render/send calls it interleaves
are network I/O outside the embedding; on `finish`/`error` the channel reads
`GetFinalText` and then deletes the state from the per-chat map, leaving the
aggregator value itself unchanged).  In the `tool-result`/`tool-error` cases
Go tests `GetToolCall(id) != nil` and mutates through the returned pointer;
here the map entry is looked up once and, because a map entry written by
these operations always addresses a live heap cell and an out-of-range
`listModify` is the identity, the two coincide. -/
def handleStreamEvent (state : StreamState) (msg : StreamMessage) : StreamState :=
  if msg.Typ = StreamEventTextStart then
    let part : Part := { ID := msg.Delta, Typ := "text", Text := "" }
    let r := state.heap.length
    { state with
        heap := state.heap ++ [part]
        parts := assocUpdate state.parts part.ID r
        currentText := some r }
  else if msg.Typ = StreamEventTextDelta then
    match state.GetPart msg.Delta with
    | some _ => state.UpdatePartDelta msg.Delta msg.Content
    | none => state.UpdatePartDelta "main" msg.Content
  else if msg.Typ = StreamEventTextEnd then
    state
  else if msg.Typ = StreamEventToolCall then
    let part : Part :=
      { ID := msg.ToolCallID, Typ := "tool", ToolName := msg.ToolName,
        ToolCallID := msg.ToolCallID, Status := some "running", Input := msg.ToolArgs }
    let r := state.heap.length
    { state with
        heap := state.heap ++ [part]
        parts := assocUpdate state.parts part.ID r
        toolCalls := assocUpdate state.toolCalls msg.ToolCallID r
        toolCallList := state.toolCallList ++ [msg.ToolCallID] }
  else if msg.Typ = StreamEventToolResult then
    match assocLookup state.toolCalls msg.ToolCallID with
    | some r =>
      { state with
          heap := listModify state.heap r fun p =>
            { p with Status := some "completed", Output := some msg.ToolResult } }
    | none => state
  else if msg.Typ = StreamEventToolError then
    match assocLookup state.toolCalls msg.ToolCallID with
    | some r =>
      { state with
          heap := listModify state.heap r fun p =>
            { p with Status := some "error", Error := some msg.Error } }
    | none => state
  else
    state

/-- Deliver a sequence of stream events for one chat to its aggregator, in
publish order (the bus preserves per-chat order end-to-end). -/
def runEvents (s : StreamState) (msgs : List StreamMessage) : StreamState :=
  msgs.foldl handleStreamEvent s

/-! Event constructors, mirroring how `agent.Session` publishes each kind
(src/unnamed/part_012). -/

/-- A `text-start` event; the session publishes the part id in `Delta`. -/
def textStartEvt (partID : String) : StreamMessage :=
  { Typ := StreamEventTextStart, Delta := partID }

/-- A `text-delta` event: part id in `Delta`, delta text in `Content`. -/
def textDeltaEvt (partID content : String) : StreamMessage :=
  { Typ := StreamEventTextDelta, Delta := partID, Content := content }

/-- A `tool-call` event. -/
def toolCallEvt (id name : String) (args : List (String × String)) : StreamMessage :=
  { Typ := StreamEventToolCall, ToolCallID := id, ToolName := name, ToolArgs := args }

/-- A `tool-result` event. -/
def toolResultEvt (id result : String) : StreamMessage :=
  { Typ := StreamEventToolResult, ToolCallID := id, ToolResult := result }

/-- A `tool-error` event. -/
def toolErrorEvt (id err : String) : StreamMessage :=
  { Typ := StreamEventToolError, ToolCallID := id, Error := err }

/-- A `finish` event. -/
def finishEvt : StreamMessage := { Typ := StreamEventFinish }

/-- The aggregator state reached after a `text-start` for part `pid` whose
accumulated text is `acc`: one text cell on the heap, pointed to by both the
`parts` map and `currentText`. -/
def textRunState (pid acc : String) : StreamState :=
  { heap := [{ ID := pid, Typ := "text", Text := acc }],
    parts := [(pid, 0)],
    currentText := some 0 }

/-- A tool-call id is rendered by `GetDisplayContent` only when the map
holds a part for it whose `ToolName` is nonempty; this predicate captures
that side condition. -/
def toolCallNamed (s : StreamState) (id : String) : Bool :=
  match s.GetToolCall id with
  | some p => if p.ToolName = "" then false else true
  | none => false

/-- Aggregator holding one tool-call part whose tool name is empty (a
`tool-call` event with an empty `ToolName` field). -/
def c6CexState : StreamState :=
  handleStreamEvent NewStreamState (toolCallEvt "t1" "" [])

/-- Aggregator holding four tool-call parts with nonempty tool names. -/
def c6WitState : StreamState :=
  runEvents NewStreamState
    [toolCallEvt "a" "T1" [], toolCallEvt "b" "T2" [],
     toolCallEvt "c" "T3" [], toolCallEvt "d" "T4" []]

/-! ### pkg/tool: results and the tool manager (src/pkg/tool/tool.go) -/

/-- Go `tool.Result`. -/
structure Result where
  Content : String
  IsError : Bool
deriving DecidableEq, Repr

/-- Go `tool.NewResult`. -/
def NewResult (content : String) (isError : Bool) : Result :=
  { Content := content, IsError := isError }

/-- Go `tool.OkResult`. -/
def OkResult (content : String) : Result := NewResult content false

/-- Go `tool.ErrorResult`. -/
def ErrorResult (content : String) : Result := NewResult content true

/-- A registered implementation of the Go `tool.Tool` interface.  The Go
`Execute(ctx, args) (Result, error)` pair becomes `Except String Result`;
`json.RawMessage` arguments are raw strings.  A `ContextualTool`'s
`SetContext(channel, chatID)` mutation is absorbed into two extra arguments
of `exec` (the manager forwards the channel and chat id it would have set;
a non-contextual tool ignores them). -/
structure ToolImpl where
  name : String
  description : String := ""
  parameters : String := ""
  exec : String → String → String → Except String Result

/-- Go `tool.Manager`: the name-keyed registry. -/
structure Manager where
  tools : List (String × ToolImpl) := []

/-- Go `tool.NewManager`. -/
def NewManager : Manager := {}

namespace Manager

/-- Go `Manager.Register`. -/
def Register (m : Manager) (t : ToolImpl) : Manager :=
  { m with tools := assocUpdate m.tools t.name t }

/-- Go `Manager.Get`. -/
def Get (m : Manager) (name : String) : Option ToolImpl :=
  assocLookup m.tools name

/-- Go `Manager.ExecuteWithContext`: unknown names yield an error-flagged
`Result` with a nil Go error (`Except.ok`), never a raised error. -/
def ExecuteWithContext (m : Manager) (name args channel chatID : String) :
    Except String Result :=
  match m.Get name with
  | none => Except.ok (ErrorResult ("unknown tool: " ++ name))
  | some t => t.exec args channel chatID

/-- Go `Manager.Execute`. -/
def Execute (m : Manager) (name args : String) : Except String Result :=
  m.ExecuteWithContext name args "" ""

end Manager

/-! ### pkg/model: provider-facing data (types reconstructed from their call
sites in src/pkg/model/provider.go, src/pkg/tool/subagent.go and
src/unnamed/part_012; the struct declarations themselves are not among the
provided sources). -/

/-- Go `model.ToolCall.Function` (name plus raw JSON arguments). -/
structure ToolFunction where
  Name : String := ""
  Arguments : String := ""
deriving DecidableEq, Repr

/-- Go `model.ToolCall`. -/
structure ToolCall where
  ID : String := ""
  Function : ToolFunction := {}
deriving DecidableEq, Repr

/-- Go `model.Message` (role-tagged conversation message). -/
structure Message where
  role : String := ""
  content : String := ""
  toolCalls : List ToolCall := []
  toolCallID : String := ""
deriving DecidableEq, Repr

/-- Go `model.FunctionTool` (a tool definition sent to the provider). -/
structure FunctionTool where
  Name : String := ""
  Description : String := ""
  Parameters : String := ""
deriving DecidableEq, Repr

/-- Go `model.Tool`; `Typ` embeds the Go field `Type`. -/
structure ModelTool where
  Typ : String := ""
  Function : FunctionTool := {}
deriving DecidableEq, Repr

/-- Go `model.NewFunctionTool` (src/pkg/model/provider.go). -/
def NewFunctionTool (name description parameters : String) : ModelTool :=
  { Typ := "function",
    Function := { Name := name, Description := description, Parameters := parameters } }

/-- Go `Manager.Definitions` (src/pkg/tool/tool.go). -/
def Manager.Definitions (m : Manager) : List ModelTool :=
  m.tools.map fun kv => NewFunctionTool kv.2.name kv.2.description kv.2.parameters

/-- Go `model.Request`. -/
structure Request where
  Model : String := ""
  Messages : List Message := []
  Tools : List ModelTool := []

/-- Go `model.ResponseEvent`: one event of a provider stream. -/
structure ResponseEvent where
  Delta : String := ""
  ToolCall : Option ToolCall := none
  FinishReason : String := ""
deriving DecidableEq, Repr

/-- Go `model.FinishReasonToolCalls`. -/
def FinishReasonToolCalls : String := "tool_calls"

/-! ### pkg/tool: the subagent manager (src/pkg/tool/subagent.go) -/

/-- Go `tool.SubagentManager`.  The provider's `SendStream(ctx, req)`
(a channel of events, or an error) is a function from the request to
`Except String (List ResponseEvent)`: the event channel is consumed to
exhaustion by the loop, so it is its ordered list of events. -/
structure SubagentManager where
  provider : Request → Except String (List ResponseEvent)
  modelName : String
  toolMgr : Manager
  systemPrompt : String
  maxIterations : Nat

/-- Go `tool.NewSubagentManager`: the iteration cap defaults to 10. -/
def NewSubagentManager (provider : Request → Except String (List ResponseEvent))
    (modelName systemPrompt : String) (toolMgr : Manager) : SubagentManager :=
  { provider := provider, modelName := modelName, toolMgr := toolMgr,
    systemPrompt := systemPrompt, maxIterations := 10 }

/-- Go `tool.SubagentResult`. -/
structure SubagentResult where
  Label : String := ""
  Content : String := ""
  IsError : Bool := false
  Iteration : Nat := 0
deriving DecidableEq, Repr

/-- The fixed subagent system prompt hard-coded in `RunSync`. -/
def subagentSystemPrompt : String :=
  "You are a subagent tasked with completing a specific task.\nComplete the task independently and report a clear, concise result.\nYou have access to tools - use them as needed.\nAfter completing the task, provide a summary of what was done."

/-- The `finishReason` accumulation of the Go stream-consuming loop: the
last nonempty finish reason seen. -/
def lastFinishReason (events : List ResponseEvent) : String :=
  events.foldl (fun acc e => if e.FinishReason = "" then acc else e.FinishReason) ""

/-- The `for iteration < sm.maxIterations` loop of Go
`SubagentManager.RunSync`.  Each round: call the provider (an error returns
an `IsError` result whose `Iteration` is the Go zero value 0); fold the
stream into the assistant text, the collected tool calls and the finish
reason; append the assistant message; stop unless the finish reason is
`tool_calls` with at least one call; otherwise execute every tool call,
feeding each result back as a tool-role message (error results prefixed
with "Error: ", never marking the subagent result as an error), and loop.
Falling out of the loop at the cap returns `IsError := false` with the
accumulated `finalContent`. -/
def runSyncLoop (sm : SubagentManager) (label : String) (messages : List Message)
    (iteration : Nat) (finalContent : String) : SubagentResult :=
  if h : iteration < sm.maxIterations then
    let iteration' := iteration + 1
    match sm.provider
        { Model := sm.modelName, Messages := messages, Tools := sm.toolMgr.Definitions } with
    | Except.error e =>
      { Label := label, Content := "Error: " ++ e, IsError := true, Iteration := 0 }
    | Except.ok events =>
      let assistantMsg := concatAll (events.map fun e => e.Delta)
      let toolCalls := events.filterMap fun e => e.ToolCall
      let finishReason := lastFinishReason events
      let messages' :=
        messages ++ [{ role := "assistant", content := assistantMsg, toolCalls := toolCalls }]
      if finishReason ≠ FinishReasonToolCalls ∨ toolCalls = [] then
        { Label := label, Content := finalContent ++ assistantMsg,
          IsError := false, Iteration := iteration' }
      else
        let toolMsgs := toolCalls.map fun tc =>
          let result :=
            match sm.toolMgr.Execute tc.Function.Name tc.Function.Arguments with
            | Except.ok r => r
            | Except.error e => ErrorResult ("Error: " ++ e)
          let content := if result.IsError then "Error: " ++ result.Content else result.Content
          ({ role := "tool", content := content, toolCallID := tc.ID } : Message)
        runSyncLoop sm label (messages' ++ toolMsgs) iteration' finalContent
  else
    { Label := label, Content := finalContent, IsError := false, Iteration := iteration }
termination_by sm.maxIterations - iteration
decreasing_by omega

/-- Go `SubagentManager.RunSync`: seed the isolated history with the fixed
subagent system prompt and the task text, then run the bounded loop. -/
def RunSync (sm : SubagentManager) (task label : String) : SubagentResult :=
  runSyncLoop sm label
    [{ role := "system", content := subagentSystemPrompt },
     { role := "user", content := task }]
    0 ""

/-! ### pkg/tool: the spawn tool (src/unnamed/part_008) -/

/-- Go `tool.spawnTask` (one element of the parsed `tasks` array). -/
structure spawnTask where
  task : String := ""
  label : String := ""
deriving DecidableEq, Repr

/-- The per-task label: explicit, or the generated `task-N` fallback
(`N = index + 1`). -/
def labelFor (i : Nat) (label : String) : String :=
  if label = "" then "task-" ++ toString (i + 1) else label

/-- The fan-out/join of Go `SpawnTool.Execute`: one goroutine per task runs
`RunSync` and writes `results[index]`; the `WaitGroup` barrier makes the
joined result the index-ordered list of per-task results.  `i` is the index
of the first task. -/
def spawnRunTasks (sm : SubagentManager) : Nat → List spawnTask → List SubagentResult
  | _, [] => []
  | i, t :: rest => RunSync sm t.task (labelFor i t.label) :: spawnRunTasks sm (i + 1) rest

/-- The success-preview truncation of Go `SpawnTool.Execute` (300 chars). -/
def spawnPreview (content : String) : String :=
  if content.length > 300 then content.take 300 ++ "..." else content

/-- One line of the aggregated spawn report. -/
def spawnSummaryLine (r : SubagentResult) : String :=
  if r.IsError then "❌ " ++ r.Label ++ ": " ++ r.Content ++ "\n"
  else
    "✅ " ++ r.Label ++ " (iterations: " ++ toString r.Iteration ++ "):\n" ++
      spawnPreview r.Content ++ "\n\n"

/-- Go `SpawnTool.Execute` after JSON argument parsing (malformed JSON and a
nil manager are rejected earlier with error results): reject an empty task
array, run all tasks, and aggregate the report. -/
def SpawnExecute (sm : SubagentManager) (tasks : List spawnTask) : Result :=
  if tasks = [] then ErrorResult "tasks array is required and must not be empty"
  else
    let results := spawnRunTasks sm 0 tasks
    OkResult
      ("Spawned " ++ toString tasks.length ++ " subagent(s) in parallel:\n\n" ++
        concatAll (results.map spawnSummaryLine))

/-! Fixtures for the spawn/subagent claims: a scripted provider that first
requests one tool call and, once a tool-role message is in the history,
finishes with `stop`; and a registry whose only tool returns an
error-flagged result. -/

/-- Scripted provider: always succeeds; requests the tool `f` until a
tool-role message appears in the conversation, then stops with "done". -/
def scriptedProvider (req : Request) : Except String (List ResponseEvent) :=
  if req.Messages.any (fun m => m.role == "tool") then
    Except.ok [{ Delta := "done", FinishReason := "stop" }]
  else
    Except.ok
      [{ ToolCall := some { ID := "t1", Function := { Name := "f", Arguments := "" } },
         FinishReason := "tool_calls" }]

/-- A tool whose execution returns an error-flagged result (no Go error). -/
def failingTool : ToolImpl :=
  { name := "f", exec := fun _ _ _ => Except.ok (ErrorResult "boom") }

/-- Registry holding only `failingTool`. -/
def cexToolMgr : Manager := NewManager.Register failingTool

/-- Subagent manager wired to the scripted provider and the failing tool. -/
def cexManager : SubagentManager :=
  NewSubagentManager scriptedProvider "m" "" cexToolMgr

/-- Spawn run of a single task against `cexManager`: its tool execution
errors, both model calls succeed. -/
def cexSpawnResults : List SubagentResult :=
  spawnRunTasks cexManager 0 [{ task := "do", label := "L" }]

/-- A provider that always succeeds immediately with an empty stream. -/
def okProvider : Request → Except String (List ResponseEvent) :=
  fun _ => Except.ok []

/-- Subagent manager wired to `okProvider` and an empty registry. -/
def witManager : SubagentManager := NewSubagentManager okProvider "m" "" NewManager

/-! ### pkg/bus: the message bus (src/unnamed/part_000) -/

/-- Capacity of each of the three bounded queues
(`make(chan …, 100)` in `NewMessageBus`). -/
def busCapacity : Nat := 100

/-- Go `bus.MessageBus`: the three bounded FIFO queues, each a list of the
currently buffered messages (head = next to be consumed).  The handler
registries are independent of the queues and not claim-relevant. -/
structure MessageBus where
  inbound : List InboundMessage := []
  outbound : List OutboundMessage := []
  stream : List StreamMessage := []
deriving DecidableEq, Repr

/-- Go `bus.NewMessageBus`: three empty queues of capacity `busCapacity`. -/
def NewMessageBus : MessageBus := {}

/-- One execution of the Go `select` inside a consume operation, as a
relation from (buffered queue, whether the context is cancelled) to
(returned pair, remaining queue).  The receive branch is enabled exactly
when a message is buffered; the `ctx.Done()` branch is enabled exactly when
the context is cancelled; Go picks among enabled branches
nondeterministically, and blocks when neither is enabled. -/
inductive queueConsume {α : Type} (zero : α) :
    List α → Bool → ((α × Bool) × List α) → Prop
  | recv (m : α) (rest : List α) (cancelled : Bool) :
      queueConsume zero (m :: rest) cancelled ((m, true), rest)
  | cancel (q : List α) : queueConsume zero q true ((zero, false), q)

/-- Go `MessageBus.ConsumeInbound` as a relation on executions. -/
def MessageBus.ConsumeInbound (mb : MessageBus) (cancelled : Bool)
    (out : (InboundMessage × Bool) × List InboundMessage) : Prop :=
  queueConsume InboundMessage.zero mb.inbound cancelled out

/-- Go `MessageBus.SubscribeOutbound` as a relation on executions. -/
def MessageBus.SubscribeOutbound (mb : MessageBus) (cancelled : Bool)
    (out : (OutboundMessage × Bool) × List OutboundMessage) : Prop :=
  queueConsume OutboundMessage.zero mb.outbound cancelled out

/-- Go `MessageBus.SubscribeStream` as a relation on executions. -/
def MessageBus.SubscribeStream (mb : MessageBus) (cancelled : Bool)
    (out : (StreamMessage × Bool) × List StreamMessage) : Prop :=
  queueConsume StreamMessage.zero mb.stream cancelled out

/-- The timestamp stamping of Go `PublishStream`: a zero timestamp is
replaced by the publish-time clock reading `now`. -/
def stampAt (msg : StreamMessage) (now : Nat) : StreamMessage :=
  if msg.Timestamp = 0 then { msg with Timestamp := now } else msg

/-- Go `MessageBus.PublishStream` on the stream queue: stamp the timestamp,
then enqueue; `none` means the channel send blocks because the buffer holds
`busCapacity` messages and no consumer has freed a slot. -/
def PublishStream (q : List StreamMessage) (msg : StreamMessage) (now : Nat) :
    Option (List StreamMessage) :=
  if q.length < busCapacity then some (q ++ [stampAt msg now]) else none

/-- A sequence of publish attempts with no consumer: each `(msg, now)` pair
is one `PublishStream` call; once a publish blocks, the publisher is stuck
and no later publish happens. -/
def publishAttempts (q : List StreamMessage) : List (StreamMessage × Nat) → List StreamMessage
  | [] => q
  | (m, t) :: rest =>
    match PublishStream q m t with
    | some q' => publishAttempts q' rest
    | none => q

/-! ### pkg/telegram: the base channel allow-list (src/unnamed/part_002) -/

/-- Go `strings.Index(s, "|")` followed by the `idx > 0` split of
`BaseChannel.IsAllowed`: an id part and a user part (empty when there is no
splitting pipe).  Character-indexed; the embedded ids are ASCII. -/
def splitAtPipe (sid : String) : String × String :=
  match sid.data.findIdx? (fun ch => ch = '|') with
  | some idx =>
    if idx > 0 then (⟨sid.data.take idx⟩, ⟨sid.data.drop (idx + 1)⟩) else (sid, "")
  | none => (sid, "")

/-- Go `strings.TrimPrefix(allowed, "@")`. -/
def trimAtSign (a : String) : String :=
  match a.data with
  | '@' :: rest => ⟨rest⟩
  | _ => a

/-- The per-entry disjunction of the Go `IsAllowed` loop body. -/
def allowMatches (senderID idPart userPart allowed : String) : Bool :=
  let trimmed := trimAtSign allowed
  let split := splitAtPipe trimmed
  let allowedID := split.1
  let allowedUser := split.2
  (senderID == allowed) || (idPart == allowed) || (senderID == trimmed) ||
    (idPart == trimmed) || (idPart == allowedID) ||
    (allowedUser != "" && senderID == allowedUser) ||
    (userPart != "" &&
      (userPart == allowed || userPart == trimmed || userPart == allowedUser))

/-- Go `telegram.BaseChannel` (bus pointer and running flag omitted: they do
not affect `IsAllowed`). -/
structure BaseChannel where
  name : String := ""
  allowList : List String := []

/-- Go `BaseChannel.IsAllowed`: an empty allow-list admits every sender;
otherwise the sender must match some entry. -/
def BaseChannel.IsAllowed (c : BaseChannel) (senderID : String) : Bool :=
  if c.allowList.length = 0 then true
  else
    let split := splitAtPipe senderID
    c.allowList.any fun allowed => allowMatches senderID split.1 split.2 allowed

/-! ## Helper lemmas -/

theorem listModify_get_self {α : Type} (f : α → α) :
    ∀ (h : List α) (r : Nat), (listModify h r f).get? r = (h.get? r).map f
  | [], r => by cases r <;> rfl
  | _ :: _, 0 => rfl
  | _ :: as, r + 1 => by
    simpa [listModify] using listModify_get_self f as r

theorem listModify_oob {α : Type} (f : α → α) :
    ∀ (h : List α) (r : Nat), h.length ≤ r → listModify h r f = h
  | [], _, _ => rfl
  | _ :: _, 0, hr => absurd hr (by simp)
  | a :: as, r + 1, hr => by
    simp only [listModify, List.cons.injEq, true_and]
    exact listModify_oob f as r (by simpa using hr)

theorem length_filterMap_all_some {α β : Type} (f : α → Option β) :
    ∀ (l : List α), (∀ a ∈ l, (f a).isSome = true) → (l.filterMap f).length = l.length
  | [], _ => rfl
  | a :: as, h => by
    obtain ⟨b, hb⟩ := Option.isSome_iff_exists.mp (h a (by simp))
    simp only [List.filterMap_cons, hb, List.length_cons]
    exact congrArg (· + 1) (length_filterMap_all_some f as fun x hx => h x (by simp [hx]))

/-! ## Stream aggregator lemmas -/

theorem handle_textStart (pid : String) :
    handleStreamEvent NewStreamState (textStartEvt pid) = textRunState pid "" := rfl

theorem handle_finish (s : StreamState) : handleStreamEvent s finishEvt = s := rfl

theorem handle_delta_eq (s : StreamState) (pid d : String) :
    handleStreamEvent s (textDeltaEvt pid d)
      = match s.GetPart pid with
        | some _ => s.UpdatePartDelta pid d
        | none => s.UpdatePartDelta "main" d := by
  simp [handleStreamEvent, textDeltaEvt, StreamEventTextStart, StreamEventTextDelta]

theorem updatePartDelta_getPart (s : StreamState) (id d : String) (p : Part)
    (hp : s.GetPart id = some p) :
    (s.UpdatePartDelta id d).GetPart id = some { p with Text := p.Text ++ d } := by
  cases hl : assocLookup s.parts id with
  | none =>
    rw [StreamState.GetPart, hl] at hp
    simp at hp
  | some r =>
    have hg : s.heap.get? r = some p := by
      rw [StreamState.GetPart, hl] at hp
      simpa using hp
    rw [StreamState.UpdatePartDelta, hl]
    rw [StreamState.GetPart]
    simp only [hl, Option.some_bind]
    rw [listModify_get_self, hg]
    rfl

theorem updatePartDelta_missing (s : StreamState) (id d : String)
    (hp : s.GetPart id = none) : s.UpdatePartDelta id d = s := by
  rw [StreamState.UpdatePartDelta]
  cases hl : assocLookup s.parts id with
  | none => rfl
  | some r =>
    have hg : s.heap.get? r = none := by
      rw [StreamState.GetPart, hl] at hp
      simpa using hp
    simp only [hl]
    rw [listModify_oob _ _ _ (List.get?_eq_none.mp hg)]

theorem getFinalText_textRun (pid acc : String) :
    (textRunState pid acc).GetFinalText = acc := by
  by_cases h : acc = ""
  · subst h; rfl
  · simp [StreamState.GetFinalText, textRunState, h]

theorem handle_delta_textRun (pid acc d : String) :
    handleStreamEvent (textRunState pid acc) (textDeltaEvt pid d)
      = textRunState pid (acc ++ d) := by
  rw [handle_delta_eq]
  have hp : (textRunState pid acc).GetPart pid
      = some { ID := pid, Typ := "text", Text := acc } := by
    simp [StreamState.GetPart, textRunState, assocLookup]
  rw [hp]
  simp [StreamState.UpdatePartDelta, textRunState, assocLookup, listModify]

theorem textRun_concat (pid : String) :
    ∀ (ds : List String) (acc : String),
      (runEvents (textRunState pid acc)
          (ds.map (textDeltaEvt pid) ++ [finishEvt])).GetFinalText
        = acc ++ concatAll ds
  | [], acc => by
    show (handleStreamEvent (textRunState pid acc) finishEvt).GetFinalText
        = acc ++ concatAll []
    rw [handle_finish, getFinalText_textRun]
    simp [concatAll]
  | d :: ds, acc => by
    show (runEvents (handleStreamEvent (textRunState pid acc) (textDeltaEvt pid d))
        (ds.map (textDeltaEvt pid) ++ [finishEvt])).GetFinalText
        = acc ++ concatAll (d :: ds)
    rw [handle_delta_textRun, textRun_concat pid ds (acc ++ d), String.append_assoc]
    rfl

/-! ## C1: final text versus concatenation of deltas -/

/-- C1 (counterexample): a sequence consisting only of text-delta events
followed by a finish event does NOT reproduce the deltas: with no prior
`text-start`, no part (not even a "main" part) exists, `UpdatePartDelta`
silently drops the delta, and the final text is `""` instead of `"hi"`. -/
theorem C1_counterexample :
    (runEvents NewStreamState [textDeltaEvt "main" "hi", finishEvt]).GetFinalText = ""
    ∧ ("" : String) ≠ "hi" :=
  ⟨rfl, by decide⟩

/-- C1 (amended): for every event sequence consisting of a `text-start`
event followed by text-delta events addressed to the started part and a
finish event, the final text the aggregator reports at finish
(`GetFinalText`) equals the concatenation of all the deltas' contents in
publish order. -/
theorem C1_aggregator_final_text (pid : String) (ds : List String) :
    (runEvents NewStreamState
        (textStartEvt pid :: (ds.map (textDeltaEvt pid) ++ [finishEvt]))).GetFinalText
      = concatAll ds := by
  show (runEvents (handleStreamEvent NewStreamState (textStartEvt pid))
      (ds.map (textDeltaEvt pid) ++ [finishEvt])).GetFinalText = concatAll ds
  rw [handle_textStart, textRun_concat pid ds "", String.empty_append]

/-! ## C2: routing of one text-delta event -/

/-- C2 (counterexample): a text-delta event whose part id is unknown and for
which no "main" part exists leaves the aggregator unchanged — the delta text
`"hi"` is not appended to any part (no fallback "main" part is created). -/
theorem C2_counterexample :
    handleStreamEvent NewStreamState (textDeltaEvt "x" "hi") = NewStreamState
    ∧ ("hi" : String) ≠ "" :=
  ⟨rfl, by decide⟩

/-- C2 (amended): a text-delta event appends its content to the part named
by the event's part-id field when such a part exists; otherwise it appends
to the part with id "main" when THAT part exists; when neither exists the
event is dropped and the aggregator is unchanged. -/
theorem C2_delta_routing (s : StreamState) (pid d : String) :
    (∀ p, s.GetPart pid = some p →
        (handleStreamEvent s (textDeltaEvt pid d)).GetPart pid
          = some { p with Text := p.Text ++ d })
    ∧ (s.GetPart pid = none → ∀ q, s.GetPart "main" = some q →
        (handleStreamEvent s (textDeltaEvt pid d)).GetPart "main"
          = some { q with Text := q.Text ++ d })
    ∧ (s.GetPart pid = none → s.GetPart "main" = none →
        handleStreamEvent s (textDeltaEvt pid d) = s) := by
  refine ⟨fun p hp => ?_, fun hn q hq => ?_, fun hn hm => ?_⟩
  · rw [handle_delta_eq, hp]
    exact updatePartDelta_getPart s pid d p hp
  · rw [handle_delta_eq, hn]
    exact updatePartDelta_getPart s "main" d q hq
  · rw [handle_delta_eq, hn]
    exact updatePartDelta_missing s "main" d hm

/-- C2 (witness): on an aggregator holding an empty text part "a", a delta
addressed to "a" is appended to it. -/
theorem C2_witness :
    (handleStreamEvent (textRunState "a" "") (textDeltaEvt "a" "!")).GetPart "a"
      = some { ID := "a", Typ := "text", Text := "!" } := by
  have h := (C2_delta_routing (textRunState "a" "") "a" "!").1
    { ID := "a", Typ := "text", Text := "" } rfl
  exact h

/-! ## C8: unknown tool-call ids are a no-op -/

/-- C8 (confirmed): a tool-result or tool-error event whose tool-call id is
unknown to the aggregator leaves the aggregator state entirely unchanged:
the heap of parts (hence every part's status, output and error fields), the
parts map, the ordered tool-call list and the current-text pointer are all
equal before and after. -/
theorem C8_unknown_tool_id_noop (s : StreamState) (id res err : String)
    (h : s.GetToolCall id = none) :
    handleStreamEvent s (toolResultEvt id res) = s
    ∧ handleStreamEvent s (toolErrorEvt id err) = s := by
  have hres : handleStreamEvent s (toolResultEvt id res)
      = (match assocLookup s.toolCalls id with
         | some r =>
           { s with heap := listModify s.heap r fun p =>
               { p with Status := some "completed", Output := some res } }
         | none => s) := by
    simp [handleStreamEvent, toolResultEvt, StreamEventTextStart, StreamEventTextDelta,
      StreamEventTextEnd, StreamEventToolCall, StreamEventToolResult, StreamEventToolError]
  have herr : handleStreamEvent s (toolErrorEvt id err)
      = (match assocLookup s.toolCalls id with
         | some r =>
           { s with heap := listModify s.heap r fun p =>
               { p with Status := some "error", Error := some err } }
         | none => s) := by
    simp [handleStreamEvent, toolErrorEvt, StreamEventTextStart, StreamEventTextDelta,
      StreamEventTextEnd, StreamEventToolCall, StreamEventToolResult, StreamEventToolError]
  rw [hres, herr]
  cases hl : assocLookup s.toolCalls id with
  | none => exact ⟨rfl, rfl⟩
  | some r =>
    have hg : s.heap.get? r = none := by
      rw [StreamState.GetToolCall, hl] at h
      simpa using h
    constructor
    · simp only []
      rw [listModify_oob _ _ _ (List.get?_eq_none.mp hg)]
    · simp only []
      rw [listModify_oob _ _ _ (List.get?_eq_none.mp hg)]

/-- C8 (witness): tool-result and tool-error events with an unknown id on
the empty aggregator change nothing. -/
theorem C8_witness :
    handleStreamEvent NewStreamState (toolResultEvt "x" "out") = NewStreamState
    ∧ handleStreamEvent NewStreamState (toolErrorEvt "x" "e") = NewStreamState :=
  C8_unknown_tool_id_noop NewStreamState "x" "out" "e" rfl

/-! ## C6: the rendered snapshot shows the last min(3, n) tool calls -/

theorem toolIDsToShow_length (s : StreamState) :
    s.toolIDsToShow.length = min 3 s.toolCallList.length := by
  rw [StreamState.toolIDsToShow]
  by_cases h : s.toolCallList.length ≤ 3
  · rw [if_pos h, Nat.min_eq_right h]
  · rw [if_neg h, List.length_drop]
    omega

theorem toolIDsToShow_subset (s : StreamState) :
    ∀ id ∈ s.toolIDsToShow, id ∈ s.toolCallList := by
  intro id hid
  rw [StreamState.toolIDsToShow] at hid
  by_cases h : s.toolCallList.length ≤ 3
  · rw [if_pos h] at hid
    exact hid
  · rw [if_neg h] at hid
    exact List.mem_of_mem_drop hid

theorem toolBlocks_length_of_named (s : StreamState)
    (h : ∀ id ∈ s.toolCallList, toolCallNamed s id = true) :
    s.toolBlocks.length = min 3 s.toolCallList.length := by
  rw [StreamState.toolBlocks]
  refine (length_filterMap_all_some _ s.toolIDsToShow ?_).trans (toolIDsToShow_length s)
  intro id hid
  have hn := h id (toolIDsToShow_subset s id hid)
  rw [toolCallNamed] at hn
  cases hg : s.GetToolCall id with
  | none =>
    rw [hg] at hn
    simp at hn
  | some p =>
    rw [hg] at hn
    by_cases hname : p.ToolName = ""
    · simp [hname] at hn
    · simp [hg, hname]

/-- C6 (counterexample): an aggregator holding one tool-call part whose
tool name is empty renders NO tool block at all (the rendering skips
nameless tool calls), although min(3, 1) = 1 blocks are claimed; the whole
rendered snapshot is empty. -/
theorem C6_counterexample :
    c6CexState.toolCallList.length = 1
    ∧ c6CexState.toolBlocks = []
    ∧ c6CexState.toolSection = []
    ∧ c6CexState.GetDisplayContent = "" :=
  ⟨rfl, rfl, rfl, rfl⟩

/-- C6 (amended): whenever every tool-call id held by the aggregator maps
to a part with a NONEMPTY tool name, the rendered snapshot's tool section
consists of tool blocks for exactly the min(3, n) most-recently-added tool
calls (n the length of the ordered tool-call list) followed, exactly when
n > 3, by a summary line counting the n - 3 tool calls not shown. -/
theorem C6_render_last3 (s : StreamState)
    (h : ∀ id ∈ s.toolCallList, toolCallNamed s id = true) :
    s.toolBlocks.length = min 3 s.toolCallList.length
    ∧ s.toolSection = s.toolBlocks ++
        (if 3 < s.toolCallList.length
         then ["📋 ... and " ++ toString (s.toolCallList.length - 3) ++ " more"]
         else []) := by
  refine ⟨toolBlocks_length_of_named s h, ?_⟩
  rw [StreamState.toolSection]
  by_cases htc : s.toolCalls.length > 0
  · rw [if_pos htc]
  · rw [if_neg htc]
    have hempty : s.toolCalls = [] := by
      cases hc : s.toolCalls with
      | nil => rfl
      | cons a rest =>
        rw [hc] at htc
        simp at htc
    cases hlist : s.toolCallList with
    | nil =>
      have hblocks : s.toolBlocks = [] := by
        rw [StreamState.toolBlocks, StreamState.toolIDsToShow, hlist]
        rfl
      rw [hblocks]
      simp
    | cons a rest =>
      exfalso
      have ha := h a (by rw [hlist]; exact List.mem_cons_self a rest)
      rw [toolCallNamed, StreamState.GetToolCall, hempty] at ha
      simp [assocLookup] at ha

/-- C6 (witness): with four tool calls carrying nonempty names, the section
holds exactly min(3, 4) = 3 blocks plus the "1 more" summary line. -/
theorem C6_witness :
    c6WitState.toolBlocks.length = min 3 c6WitState.toolCallList.length
    ∧ c6WitState.toolSection = c6WitState.toolBlocks ++
        (if 3 < c6WitState.toolCallList.length
         then ["📋 ... and " ++ toString (c6WitState.toolCallList.length - 3) ++ " more"]
         else []) :=
  C6_render_last3 c6WitState (by decide)

/-! ## C7: cancellation-aware blocking consume -/

theorem queueConsume_cancelled_empty {α : Type} (zero : α) (out : (α × Bool) × List α) :
    queueConsume zero ([] : List α) true out ↔ out = ((zero, false), []) := by
  constructor
  · intro h
    cases h with
    | cancel => rfl
  · rintro rfl
    exact queueConsume.cancel []

theorem queueConsume_recv_only {α : Type} (zero : α) (m : α) (rest : List α)
    (out : (α × Bool) × List α) :
    queueConsume zero (m :: rest) false out ↔ out = ((m, true), rest) := by
  constructor
  · intro h
    cases h with
    | recv => rfl
  · rintro rfl
    exact queueConsume.recv m rest false

/-- C7 (counterexample): with a message buffered AND the token already
cancelled, the Go `select` may take the `ctx.Done()` branch: the execution
returning `(zero, ok=false)` is possible, contradicting "if a message is
available it returns that message and ok=true". -/
theorem C7_counterexample :
    MessageBus.ConsumeInbound { inbound := [{ Content := "x" }] } true
      ((InboundMessage.zero, false), [{ Content := "x" }])
    ∧ (((InboundMessage.zero, false), ([{ Content := "x" }] : List InboundMessage))
        ≠ ((({ Content := "x" } : InboundMessage), true), ([] : List InboundMessage))) :=
  ⟨queueConsume.cancel _, by decide⟩

/-- C7 (amended): for each consume operation (`ConsumeInbound`,
`SubscribeOutbound`, `SubscribeStream`): when the token is cancelled and no
message is available, the unique possible outcome is the zero-valued
message with ok = false; when a message is available and the token is NOT
cancelled, the unique possible outcome is that (head) message with
ok = true. -/
theorem C7_consume_cancellation (mb : MessageBus) (cancelled : Bool) :
    (mb.inbound = [] → cancelled = true → ∀ out,
      (mb.ConsumeInbound cancelled out ↔ out = ((InboundMessage.zero, false), [])))
    ∧ (∀ m rest, mb.inbound = m :: rest → cancelled = false → ∀ out,
      (mb.ConsumeInbound cancelled out ↔ out = ((m, true), rest)))
    ∧ (mb.outbound = [] → cancelled = true → ∀ out,
      (mb.SubscribeOutbound cancelled out ↔ out = ((OutboundMessage.zero, false), [])))
    ∧ (∀ m rest, mb.outbound = m :: rest → cancelled = false → ∀ out,
      (mb.SubscribeOutbound cancelled out ↔ out = ((m, true), rest)))
    ∧ (mb.stream = [] → cancelled = true → ∀ out,
      (mb.SubscribeStream cancelled out ↔ out = ((StreamMessage.zero, false), [])))
    ∧ (∀ m rest, mb.stream = m :: rest → cancelled = false → ∀ out,
      (mb.SubscribeStream cancelled out ↔ out = ((m, true), rest))) := by
  refine ⟨fun he hc out => ?_, fun m rest he hc out => ?_, fun he hc out => ?_,
    fun m rest he hc out => ?_, fun he hc out => ?_, fun m rest he hc out => ?_⟩
  · rw [MessageBus.ConsumeInbound, he, hc]
    exact queueConsume_cancelled_empty _ out
  · rw [MessageBus.ConsumeInbound, he, hc]
    exact queueConsume_recv_only _ m rest out
  · rw [MessageBus.SubscribeOutbound, he, hc]
    exact queueConsume_cancelled_empty _ out
  · rw [MessageBus.SubscribeOutbound, he, hc]
    exact queueConsume_recv_only _ m rest out
  · rw [MessageBus.SubscribeStream, he, hc]
    exact queueConsume_cancelled_empty _ out
  · rw [MessageBus.SubscribeStream, he, hc]
    exact queueConsume_recv_only _ m rest out

/-- C7 (witness): cancellation on the empty bus yields the zero inbound
message; a buffered stream message with no cancellation is received. -/
theorem C7_witness :
    MessageBus.ConsumeInbound NewMessageBus true ((InboundMessage.zero, false), [])
    ∧ MessageBus.SubscribeStream { stream := [finishEvt] } false ((finishEvt, true), []) := by
  constructor
  · exact ((C7_consume_cancellation NewMessageBus true).1 rfl rfl _).mpr rfl
  · exact ((C7_consume_cancellation { stream := [finishEvt] } false).2.2.2.2.2
      finishEvt [] rfl rfl _).mpr rfl

/-! ## C9: bounded buffering with backpressure -/

theorem publishAttempts_eq :
    ∀ (items : List (StreamMessage × Nat)) (q : List StreamMessage),
      q.length ≤ busCapacity →
      publishAttempts q items
        = (q ++ items.map fun it => stampAt it.1 it.2).take busCapacity
  | [], q, hq => by
    simp only [publishAttempts, List.map_nil, List.append_nil]
    exact (List.take_of_length_le hq).symm
  | (m, t) :: rest, q, hq => by
    by_cases hlt : q.length < busCapacity
    · simp only [publishAttempts, PublishStream, if_pos hlt]
      rw [publishAttempts_eq rest (q ++ [stampAt m t]) (by simp; omega)]
      simp [List.append_assoc]
    · have hfull : q.length = busCapacity := by omega
      simp only [publishAttempts, PublishStream, if_neg hlt]
      rw [← hfull]
      exact (List.take_left q _).symm

/-- C9 (confirmed): with no consumer, a sequence of publish calls to the
stream queue buffers exactly the first min(N, K) messages (K = 100), each
stamped at publish time, in order, with nothing dropped or duplicated; a
publish against a full buffer blocks (returns no new buffer), and once one
message is consumed (the head dequeued) a publish succeeds again. -/
theorem C9_capacity (items : List (StreamMessage × Nat)) :
    publishAttempts [] items
      = (items.map fun it => stampAt it.1 it.2).take busCapacity
    ∧ (∀ q : List StreamMessage, q.length = busCapacity →
        (∀ m now, PublishStream q m now = none)
        ∧ (∀ m now, (PublishStream (q.drop 1) m now).isSome = true)) := by
  constructor
  · simpa using publishAttempts_eq items [] (by simp)
  · intro q hq
    constructor
    · intro m now
      rw [PublishStream, if_neg (by omega)]
    · intro m now
      have hlt : (q.drop 1).length < busCapacity := by
        rw [List.length_drop, hq]
        simp [busCapacity]
      rw [PublishStream, if_pos hlt]
      rfl

/-- C9 (witness): one publish of an unstamped message buffers it stamped;
a publish against a full (100-message) buffer returns none. -/
theorem C9_witness :
    publishAttempts [] [({ Typ := "text-delta" }, 5)]
      = [{ Typ := "text-delta", Timestamp := 5 }]
    ∧ PublishStream (List.replicate busCapacity StreamMessage.zero) StreamMessage.zero 7
      = none := by
  have h := C9_capacity [({ Typ := "text-delta" }, 5)]
  constructor
  · exact h.1.trans rfl
  · exact (h.2 (List.replicate busCapacity StreamMessage.zero) (by simp)).1 StreamMessage.zero 7

/-! ## C10: an empty allow-list admits every sender -/

/-- C10 (confirmed): a channel whose allow-list is empty admits every
sender id; a non-empty allow-list can reject a sender. -/
theorem C10_empty_allowlist :
    (∀ (c : BaseChannel) (senderID : String),
      c.allowList = [] → c.IsAllowed senderID = true)
    ∧ BaseChannel.IsAllowed { name := "telegram", allowList := ["alice"] } "bob" = false := by
  constructor
  · intro c sid h
    rw [BaseChannel.IsAllowed, h]
    rfl
  · rfl

/-- C10 (witness): a channel with an empty allow-list admits sender
"12345". -/
theorem C10_witness :
    BaseChannel.IsAllowed { name := "telegram", allowList := [] } "12345" = true :=
  C10_empty_allowlist.1 { name := "telegram", allowList := [] } "12345" rfl

/-! ## C4: unknown tool names yield an error result, not a raised error -/

/-- C4 (confirmed): executing any tool name absent from the registry, with
any arguments and context, returns (with a nil Go error, `Except.ok`) a
`Result` with `IsError = true` whose content names the unknown tool. -/
theorem C4_unknown_tool (m : Manager) (name args channel chatID : String)
    (h : m.Get name = none) :
    m.ExecuteWithContext name args channel chatID
      = Except.ok (ErrorResult ("unknown tool: " ++ name))
    ∧ m.Execute name args = Except.ok (ErrorResult ("unknown tool: " ++ name)) := by
  have h1 : ∀ ch cid, m.ExecuteWithContext name args ch cid
      = Except.ok (ErrorResult ("unknown tool: " ++ name)) := by
    intro ch cid
    rw [Manager.ExecuteWithContext, h]
  exact ⟨h1 channel chatID, h1 "" ""⟩

/-- C4 (witness): the empty registry rejects the name "nope". -/
theorem C4_witness :
    NewManager.Execute "nope" "" = Except.ok (ErrorResult ("unknown tool: " ++ "nope")) :=
  (C4_unknown_tool NewManager "nope" "" "" "" rfl).2

/-! ## C5: the subagent loop is capped at 10 iterations -/

theorem runSyncLoop_iteration_le (sm : SubagentManager) (label : String) :
    ∀ (n : Nat) (messages : List Message) (iteration : Nat) (finalContent : String),
      sm.maxIterations - iteration = n → iteration ≤ sm.maxIterations →
      (runSyncLoop sm label messages iteration finalContent).Iteration ≤ sm.maxIterations := by
  intro n
  induction n with
  | zero =>
    intro messages iteration finalContent hn hle
    rw [runSyncLoop]
    rw [dif_neg (by omega)]
    exact hle
  | succ n ih =>
    intro messages iteration finalContent hn hle
    rw [runSyncLoop]
    by_cases hlt : iteration < sm.maxIterations
    · rw [dif_pos hlt]
      cases hpr : sm.provider
          { Model := sm.modelName, Messages := messages, Tools := sm.toolMgr.Definitions } with
      | error e => simp
      | ok events =>
        simp only []
        by_cases hfin :
            lastFinishReason events ≠ FinishReasonToolCalls
            ∨ events.filterMap (fun e => e.ToolCall) = []
        · rw [if_pos hfin]
          exact hlt
        · rw [if_neg hfin]
          exact ih _ (iteration + 1) finalContent (by omega) (by omega)
    · rw [dif_neg hlt]
      exact hle

/-- C5 (confirmed): for every provider behavior (including one that always
answers with finish_reason = tool_calls, and including provider errors) and
every task, `RunSync` on a manager built by `NewSubagentManager` (default
cap 10) terminates — it is a total function — and returns a result whose
`Iteration` is at most 10. -/
theorem C5_subagent_cap (provider : Request → Except String (List ResponseEvent))
    (modelName systemPrompt : String) (toolMgr : Manager) (task label : String) :
    (RunSync (NewSubagentManager provider modelName systemPrompt toolMgr) task label).Iteration
      ≤ 10 :=
  runSyncLoop_iteration_le (NewSubagentManager provider modelName systemPrompt toolMgr) label
    10
    [{ role := "system", content := subagentSystemPrompt },
     { role := "user", content := task }]
    0 "" rfl (by omega)

/-! ## C3: spawn with a tool error among tasks -/

theorem runSyncLoop_ok_not_error (sm : SubagentManager) (label : String)
    (hp : ∀ req, ∃ evs, sm.provider req = Except.ok evs) :
    ∀ (n : Nat) (messages : List Message) (iteration : Nat) (finalContent : String),
      sm.maxIterations - iteration = n →
      (runSyncLoop sm label messages iteration finalContent).IsError = false := by
  intro n
  induction n with
  | zero =>
    intro messages iteration finalContent hn
    rw [runSyncLoop]
    rw [dif_neg (by omega)]
  | succ n ih =>
    intro messages iteration finalContent hn
    rw [runSyncLoop]
    by_cases hlt : iteration < sm.maxIterations
    · rw [dif_pos hlt]
      obtain ⟨evs, hevs⟩ := hp
        { Model := sm.modelName, Messages := messages, Tools := sm.toolMgr.Definitions }
      rw [hevs]
      simp only []
      by_cases hfin :
          lastFinishReason evs ≠ FinishReasonToolCalls
          ∨ evs.filterMap (fun e => e.ToolCall) = []
      · rw [if_pos hfin]
      · rw [if_neg hfin]
        exact ih _ (iteration + 1) finalContent (by omega)
    · rw [dif_neg hlt]

theorem RunSync_ok_not_error (sm : SubagentManager) (task label : String)
    (hp : ∀ req, ∃ evs, sm.provider req = Except.ok evs) :
    (RunSync sm task label).IsError = false :=
  runSyncLoop_ok_not_error sm label hp (sm.maxIterations - 0)
    [{ role := "system", content := subagentSystemPrompt },
     { role := "user", content := task }]
    0 "" rfl

/-- C3 (counterexample): with one task whose tool execution returns an
error-flagged result (`cexToolMgr.Execute "f" "" = ok (ErrorResult "boom")`)
while every model call succeeds, spawn returns 1 result with ZERO entries
marked `IsError = true`, not one: the tool error is fed back to the model
as an "Error: "-prefixed tool message and the subagent then finishes
normally. -/
theorem C3_counterexample :
    cexToolMgr.Execute "f" "" = Except.ok (ErrorResult "boom")
    ∧ cexSpawnResults.length = 1
    ∧ cexSpawnResults.countP (fun r => r.IsError) = 0 := by
  have hrun : RunSync cexManager "do" "L"
      = { Label := "L", Content := "done", IsError := false, Iteration := 2 } := by
    simp [RunSync, runSyncLoop, cexManager, NewSubagentManager, scriptedProvider, cexToolMgr,
      NewManager, Manager.Register, Manager.Execute, Manager.ExecuteWithContext, Manager.Get,
      Manager.Definitions, assocLookup, assocUpdate, failingTool, lastFinishReason, concatAll,
      FinishReasonToolCalls, ErrorResult, OkResult, NewResult, subagentSystemPrompt,
      NewFunctionTool]
  have hlist : cexSpawnResults = [RunSync cexManager "do" "L"] := rfl
  refine ⟨rfl, ?_, ?_⟩
  · rw [hlist]
    rfl
  · rw [hlist, hrun]
    rfl

/-- C3 (amended): tool-execution errors inside a spawned task are
recoverable — they are fed back into that task's conversation and never
mark its entry — so for every task list on a manager whose provider always
succeeds (tool executions may error freely), spawn returns exactly one
result per task (no sibling is cancelled) with ZERO entries marked
`IsError = true`; only a provider (model-call) failure can mark an entry. -/
theorem C3_spawn_isolation (sm : SubagentManager) (tasks : List spawnTask) (i0 : Nat)
    (hp : ∀ req, ∃ evs, sm.provider req = Except.ok evs) :
    (spawnRunTasks sm i0 tasks).length = tasks.length
    ∧ (spawnRunTasks sm i0 tasks).countP (fun r => r.IsError) = 0 := by
  induction tasks generalizing i0 with
  | nil => exact ⟨rfl, rfl⟩
  | cons t rest ih =>
    have hrest := ih (i0 + 1)
    constructor
    · simp only [spawnRunTasks, List.length_cons, hrest.1]
    · simp [spawnRunTasks, List.countP_cons,
        RunSync_ok_not_error sm t.task (labelFor i0 t.label) hp, hrest.2]

/-- C3 (witness): spawn of one task on `cexManager` (whose scripted run
includes a tool-execution error but only successful model calls) returns
one result and zero error-marked entries. -/
theorem C3_witness :
    (spawnRunTasks cexManager 0 [{ task := "do", label := "L" }]).length = 1
    ∧ (spawnRunTasks cexManager 0 [{ task := "do", label := "L" }]).countP
        (fun r => r.IsError) = 0 :=
  C3_spawn_isolation cexManager [{ task := "do", label := "L" }] 0
    (fun req => by
      rw [show cexManager.provider = scriptedProvider from rfl, scriptedProvider]
      by_cases h : req.Messages.any (fun m => m.role == "tool") = true
      · rw [if_pos h]
        exact ⟨_, rfl⟩
      · rw [if_neg h]
        exact ⟨_, rfl⟩)

end Nene
